import Mathlib

/-!
Verification development for the pipeline-delivery-packager repository.

The pure core of the pipeline (planner, validator, scanner walk, pack
executor control flow) is embedded as executable Lean definitions.
Filesystem interaction is made explicit: every operating-system call the
Python code performs (stat, exists, mkdir, copy, hash) is represented by
the value it returns, threaded in as data, so each code path of the
source is a branch of a total function here.
-/

namespace Packager

/-- Mirrors `packager.models.ValidationResult`: one finding with a severity
level, a stable short code, a human message and an optional relative path. -/
structure ValidationResult where
  level : String
  code : String
  message : String
  relpath : Option String
deriving DecidableEq

/-- Mirrors `packager.models.PackPlanItem`. -/
structure PackPlanItem where
  src : String
  relpath : String
  dst : String
  category : String
deriving DecidableEq

/-- The whitespace characters stripped by Python `str.strip()` (ASCII part). -/
def isPySpace (c : Char) : Bool :=
  c == ' ' || c == '\t' || c == '\n' || c == '\r' || c == '\x0b' || c == '\x0c'

/-- Python `str.strip()`. -/
def pyStrip (s : String) : String :=
  String.mk (((s.data.dropWhile isPySpace).reverse.dropWhile isPySpace).reverse)

/-- Python `str.lower()` (ASCII case mapping). -/
def pyLower (s : String) : String := String.mk (s.data.map Char.toLower)

/-- Python `str.upper()` (ASCII case mapping). -/
def pyUpper (s : String) : String := String.mk (s.data.map Char.toUpper)

/-- Split a character list at every occurrence of `sep`, Python
`str.split(sep)` style: splitting the empty string gives one empty part. -/
def splitChar (sep : Char) : List Char → List (List Char)
  | [] => [[]]
  | c :: rest =>
    let r := splitChar sep rest
    if c == sep then [] :: r
    else
      match r with
      | h :: t => (c :: h) :: t
      | [] => [[c]]

/-- Python `pathlib.PurePath(p).name` on a forward-slash path with no
trailing separator: the last `/`-separated component. -/
def pyBaseName (p : String) : String :=
  String.mk ((splitChar '/' p.data).getLastD p.data)

/-- Python `pathlib.PurePath(name).suffix` of a final path component:
the part of `name` from its last dot, provided that dot is neither the
first nor the last character; otherwise the empty string. -/
def pySuffix (name : String) : String :=
  let cs := name.data
  let n := cs.length
  let j := cs.reverse.indexOf '.'
  if j < n then
    let i := n - 1 - j
    if 0 < i ∧ i < n - 1 then String.mk (cs.drop i) else ""
  else ""

/-- `packager.core.scanner._normalize_ext`: `suffix.lower().lstrip(".")`. -/
def normalize_ext (name : String) : String :=
  String.mk ((pyLower (pySuffix name)).data.dropWhile (fun c => c == '.'))

/-- `versionDigitsOk ds` holds when `ds` is 3 or 4 decimal digits. -/
def versionDigitsOk (ds : List Char) : Bool :=
  ds.all (·.isDigit) && (ds.length == 3 || ds.length == 4)

/-- `planner._VERSION_ONLY_RE`: Python `re.match` of `^v\d{3,4}$` with
`re.IGNORECASE`.  Python `$` also matches just before one trailing
newline, which the model reproduces. -/
def versionOnlyMatch (s : String) : Bool :=
  match s.data with
  | c :: rest =>
    (c == 'v' || c == 'V') &&
      (versionDigitsOk rest ||
        (rest.getLast? == some '\n' && versionDigitsOk rest.dropLast))
  | [] => false

/-- Delimiters of `validator._VERSION_RE`: the class `[_\-.]`. -/
def isTokenDelim (c : Char) : Bool := c == '_' || c == '-' || c == '.'

/-- The group `($|[_\-.])` of `validator._VERSION_RE` tested against the
remaining characters (`$` matches at the end or just before one trailing
newline). -/
def endOrDelim : List Char → Bool
  | [] => true
  | c :: rest => isTokenDelim c || (c == '\n' && rest.isEmpty)

/-- A match of `v(\d{3,4})($|[_\-.])` starting at the head of the list. -/
def vTokenAt : List Char → Bool
  | c :: d1 :: d2 :: d3 :: rest =>
    (c == 'v' || c == 'V') && d1.isDigit && d2.isDigit && d3.isDigit &&
      (endOrDelim rest ||
        (match rest with
         | d4 :: rest2 => d4.isDigit && endOrDelim rest2
         | [] => false))
  | _ => false

/-- Scan for `validator._VERSION_RE`: the flag records whether the current
position is the string start or is preceded by a delimiter (`(^|[_\-.])`). -/
def hasVTokenAux : Bool → List Char → Bool
  | _, [] => false
  | prevOk, c :: rest =>
    (prevOk && vTokenAt (c :: rest)) || hasVTokenAux (isTokenDelim c) rest

/-- `validator._VERSION_RE.search(name)` as a Boolean. -/
def hasVToken (s : String) : Bool := hasVTokenAux true s.data

/-- Result of Python `os.stat`: byte size and modification time in seconds.
The fractional-second time is modelled exactly as a rational. -/
structure PyStat where
  size : Nat
  mtime : Rat
deriving DecidableEq

/-- Python `int()` applied to a (rational) number: truncation toward zero. -/
def pyTrunc (q : Rat) : Int := if q < 0 then Rat.ceil q else Rat.floor q

/-- The values returned by the filesystem calls `execute_pack` makes while
processing one plan item.  `none` in an `Option` field models the call
raising `OSError`. -/
structure FsView where
  srcExists : Bool
  srcHashR : Option String
  mkdirOk : Bool
  dstExists : Bool
  srcStat : Option PyStat
  dstStat : Option PyStat
  copyOk : Bool
  dstHashR : Option String
deriving DecidableEq

/-- `packager.core.pack._same_file`: both stats readable, equal size and
equal modification time truncated to whole seconds. -/
def same_file (v : FsView) : Bool :=
  match v.srcStat, v.dstStat with
  | some s, some d => s.size == d.size && pyTrunc s.mtime == pyTrunc d.mtime
  | _, _ => false

/-- The two destination-touching filesystem calls of `execute_pack`,
tagged with the 1-based index of the plan item that issued them. -/
inductive PackEvent where
  | mkdirCall (idx : Nat)
  | copyCall (idx : Nat)
deriving DecidableEq

/-- The net effect of processing one plan item in `execute_pack`'s loop:
counter increments, at most one finding, an optional hash-map entry, and
which destination-touching calls were issued. -/
structure ItemRes where
  dCopied : Nat
  dSkipped : Nat
  dFailed : Nat
  finding : Option ValidationResult
  hashEntry : Option (String × String)
  mkdirTried : Bool
  copyTried : Bool
deriving DecidableEq

/-- The body of `execute_pack`'s per-item loop (after the cancellation
check and the progress callback), translated branch for branch from
`packager/core/pack.py`. -/
def processItem (overwrite verify_hash : Bool) (it : PackPlanItem) (v : FsView) : ItemRes :=
  if !v.srcExists then
    { dCopied := 0, dSkipped := 0, dFailed := 1
      finding := some ⟨"ERROR", "SRC_MISSING", "Source missing: " ++ it.src, some it.relpath⟩
      hashEntry := none, mkdirTried := false, copyTried := false }
  else if verify_hash && v.srcHashR.isNone then
    { dCopied := 0, dSkipped := 0, dFailed := 1
      finding := some ⟨"ERROR", "HASH_SRC_FAILED", "Failed hashing source: " ++ it.src, some it.relpath⟩
      hashEntry := none, mkdirTried := false, copyTried := false }
  else
    let srcHash : Option String := if verify_hash then v.srcHashR else none
    let entry : Option (String × String) := srcHash.map (fun h => (it.src, h))
    if !v.mkdirOk then
      { dCopied := 0, dSkipped := 0, dFailed := 1
        finding := some ⟨"ERROR", "DST_DIR_CREATE_FAILED", "Failed creating destination folder for: " ++ it.dst, some it.relpath⟩
        hashEntry := entry, mkdirTried := true, copyTried := false }
    else if v.dstExists && !overwrite then
      if same_file v then
        { dCopied := 0, dSkipped := 1, dFailed := 0
          finding := none, hashEntry := entry, mkdirTried := true, copyTried := false }
      else
        { dCopied := 0, dSkipped := 1, dFailed := 0
          finding := some ⟨"WARNING", "DST_EXISTS_SKIPPED", "Destination exists; skipped (overwrite disabled): " ++ it.dst, some it.relpath⟩
          hashEntry := entry, mkdirTried := true, copyTried := false }
    else if !v.copyOk then
      { dCopied := 0, dSkipped := 0, dFailed := 1
        finding := some ⟨"ERROR", "COPY_FAILED", "Copy failed: " ++ it.src ++ " -> " ++ it.dst, some it.relpath⟩
        hashEntry := entry, mkdirTried := true, copyTried := true }
    else
      match srcHash with
      | some h =>
        match v.dstHashR with
        | none =>
          { dCopied := 1, dSkipped := 0, dFailed := 1
            finding := some ⟨"ERROR", "HASH_DST_FAILED", "Failed hashing destination: " ++ it.dst, some it.relpath⟩
            hashEntry := entry, mkdirTried := true, copyTried := true }
        | some dh =>
          if dh != h then
            { dCopied := 1, dSkipped := 0, dFailed := 1
              finding := some ⟨"ERROR", "HASH_MISMATCH", "Integrity check failed (src != dst) for: " ++ pyBaseName it.dst, some it.relpath⟩
              hashEntry := entry, mkdirTried := true, copyTried := true }
          else
            { dCopied := 1, dSkipped := 0, dFailed := 0
              finding := none, hashEntry := entry, mkdirTried := true, copyTried := true }
      | none =>
        { dCopied := 1, dSkipped := 0, dFailed := 0
          finding := none, hashEntry := entry, mkdirTried := true, copyTried := true }

/-- Python dict assignment `d[k] = v`: replace in place or append. -/
def dictSet : List (String × String) → String → String → List (String × String)
  | [], k, v => [(k, v)]
  | (k', v') :: rest, k, v =>
    if k' = k then (k, v) :: rest else (k', v') :: dictSet rest k v

/-- Python dict lookup `d.get(k)`. -/
def dictGet : List (String × String) → String → Option String
  | [], _ => none
  | (k', v') :: rest, k => if k' = k then some v' else dictGet rest k

/-- Mutable state of `execute_pack`'s loop: the counters, accumulated
issues, the source-path-to-digest map, the destination-touching calls
issued so far, and the progress-callback invocations. -/
structure PackState where
  copied : Nat
  skipped : Nat
  failed : Nat
  issues : List ValidationResult
  hashes : List (String × String)
  events : List PackEvent
  fired : List Nat

/-- Fold one item's `ItemRes` into the loop state. -/
def applyItem (s : PackState) (idx : Nat) (r : ItemRes) : PackState :=
  { copied := s.copied + r.dCopied
    skipped := s.skipped + r.dSkipped
    failed := s.failed + r.dFailed
    issues := s.issues ++ r.finding.toList
    hashes :=
      match r.hashEntry with
      | some kv => dictSet s.hashes kv.1 kv.2
      | none => s.hashes
    events := s.events ++
      (if r.mkdirTried then [PackEvent.mkdirCall idx] else []) ++
      (if r.copyTried then [PackEvent.copyCall idx] else [])
    fired := s.fired ++ [idx] }

/-- The loop of `execute_pack`: poll the cancellation predicate before each
item (emitting `PACK_CANCELLED` and stopping on the first true poll),
otherwise fire the progress callback and process the item. -/
def runPack (overwrite verify_hash : Bool) (cancel : Nat → Bool) :
    List (PackPlanItem × FsView) → Nat → PackState → PackState
  | [], _, s => s
  | (it, v) :: rest, idx, s =>
    if cancel idx then
      { s with issues := s.issues ++
          [⟨"WARNING", "PACK_CANCELLED", "Packaging cancelled by user.", some it.relpath⟩] }
    else
      runPack overwrite verify_hash cancel rest (idx + 1)
        (applyItem s idx (processItem overwrite verify_hash it v))

/-- Mirrors `packager.core.pack.PackSummary`. -/
structure PackSummary where
  total : Nat
  copied : Nat
  skipped : Nat
  failed : Nat
deriving DecidableEq

/-- Everything observable about one `execute_pack` run: its returned
triple plus the trace of destination-touching calls and progress firings. -/
structure PackRun where
  summary : PackSummary
  issues : List ValidationResult
  hashes_by_src : List (String × String)
  events : List PackEvent
  fired : List Nat

/-- The initial loop state of `execute_pack`. -/
def initPackState : PackState := ⟨0, 0, 0, [], [], [], []⟩

/-- `packager.core.pack.execute_pack`.  Each plan item carries the `FsView`
of what the filesystem answers for it; `cancel i` is the value of the
`is_cancelled()` poll made at the start of iteration `i` (1-based). -/
def execute_pack (plan : List (PackPlanItem × FsView)) (overwrite : Bool)
    (verify_hash : Bool) (cancel : Nat → Bool) : PackRun :=
  let s := runPack overwrite verify_hash cancel plan 1 initPackState
  ⟨⟨plan.length, s.copied, s.skipped, s.failed⟩, s.issues, s.hashes, s.events, s.fired⟩

/-- C10: for every plan and every combination of overwrite, verify and
cancellation arguments, the summary's `total` equals the length of the
input plan (it is computed from the plan before the loop runs). -/
theorem execute_pack_total (plan : List (PackPlanItem × FsView)) (ov vh : Bool)
    (cancel : Nat → Bool) :
    (execute_pack plan ov vh cancel).summary.total = plan.length := rfl

/-- C3: packing an item with verification enabled whose destination bytes
differ from the source after the copy emits a `HASH_MISMATCH` `ERROR`
finding, increments `failed`, keeps `copied` incremented, and the
returned hash map still holds the correct source-path-to-digest entry. -/
theorem execute_pack_hash_mismatch (it : PackPlanItem) (v : FsView) (ov : Bool)
    (cancel : Nat → Bool) (h dh : String)
    (hc : cancel 1 = false)
    (hse : v.srcExists = true) (hsh : v.srcHashR = some h)
    (hmk : v.mkdirOk = true)
    (hdst : v.dstExists = false ∨ ov = true)
    (hcp : v.copyOk = true) (hdh : v.dstHashR = some dh) (hne : dh ≠ h) :
    (execute_pack [(it, v)] ov true cancel).summary.failed = 1 ∧
      (execute_pack [(it, v)] ov true cancel).summary.copied = 1 ∧
      (execute_pack [(it, v)] ov true cancel).issues.countP
        (fun x => x.code == "HASH_MISMATCH" && x.level == "ERROR") = 1 ∧
      dictGet (execute_pack [(it, v)] ov true cancel).hashes_by_src it.src = some h := by
  have hbne : (dh != h) = true := by simpa [bne_iff_ne] using hne
  rcases hdst with hdst | hdst <;>
    simp [execute_pack, runPack, hc, processItem, applyItem, initPackState,
      hse, hsh, hmk, hdst, hcp, hdh, hbne, dictGet, dictSet,
      List.countP_cons, List.countP_nil]

/-- Closed instance of `execute_pack_hash_mismatch`. -/
theorem execute_pack_hash_mismatch_witness :
    (execute_pack [(⟨"/in/a.fbx", "a.fbx", "/out/a.fbx", "export/fbx"⟩,
        ⟨true, some "aa11", true, false, none, none, true, some "bb22"⟩)]
      false true (fun _ => false)).summary.failed = 1 ∧
      (execute_pack [(⟨"/in/a.fbx", "a.fbx", "/out/a.fbx", "export/fbx"⟩,
          ⟨true, some "aa11", true, false, none, none, true, some "bb22"⟩)]
        false true (fun _ => false)).summary.copied = 1 ∧
      (execute_pack [(⟨"/in/a.fbx", "a.fbx", "/out/a.fbx", "export/fbx"⟩,
          ⟨true, some "aa11", true, false, none, none, true, some "bb22"⟩)]
        false true (fun _ => false)).issues.countP
        (fun x => x.code == "HASH_MISMATCH" && x.level == "ERROR") = 1 ∧
      dictGet (execute_pack [(⟨"/in/a.fbx", "a.fbx", "/out/a.fbx", "export/fbx"⟩,
          ⟨true, some "aa11", true, false, none, none, true, some "bb22"⟩)]
        false true (fun _ => false)).hashes_by_src "/in/a.fbx" = some "aa11" :=
  execute_pack_hash_mismatch _ _ false (fun _ => false) "aa11" "bb22" rfl rfl rfl rfl
    (Or.inl rfl) rfl rfl (by decide)

/-- C6: packing an item with `overwrite = false` whose destination already
exists increments `skipped`, performs no copy call, and emits no finding
exactly when source and destination have equal size and equal
whole-second modification time; otherwise it emits one
`DST_EXISTS_SKIPPED` `WARNING`. -/
theorem execute_pack_skip_existing (it : PackPlanItem) (v : FsView) (vh : Bool)
    (cancel : Nat → Bool) (ss ds : PyStat)
    (hc : cancel 1 = false) (hse : v.srcExists = true)
    (hvh : vh = true → v.srcHashR.isSome = true)
    (hmk : v.mkdirOk = true) (hde : v.dstExists = true)
    (hss : v.srcStat = some ss) (hds : v.dstStat = some ds) :
    (execute_pack [(it, v)] false vh cancel).summary.skipped = 1 ∧
      (execute_pack [(it, v)] false vh cancel).summary.copied = 0 ∧
      (execute_pack [(it, v)] false vh cancel).summary.failed = 0 ∧
      (∀ e ∈ (execute_pack [(it, v)] false vh cancel).events,
        ∀ i, e ≠ PackEvent.copyCall i) ∧
      (if ss.size = ds.size ∧ pyTrunc ss.mtime = pyTrunc ds.mtime
        then (execute_pack [(it, v)] false vh cancel).issues = []
        else (execute_pack [(it, v)] false vh cancel).issues.countP
            (fun x => x.code == "DST_EXISTS_SKIPPED" && x.level == "WARNING") = 1 ∧
          (execute_pack [(it, v)] false vh cancel).issues.length = 1) := by
  have hsf : same_file v = (ss.size == ds.size && pyTrunc ss.mtime == pyTrunc ds.mtime) := by
    simp [same_file, hss, hds]
  by_cases hvhb : vh = true
  · obtain ⟨h, hsh⟩ := Option.isSome_iff_exists.mp (hvh hvhb)
    subst hvhb
    by_cases hsame : ss.size = ds.size ∧ pyTrunc ss.mtime = pyTrunc ds.mtime
    · simp [execute_pack, runPack, hc, processItem, applyItem, initPackState,
        hse, hsh, hmk, hde, hsf, hsame]
    · have hsfb : same_file v = false := by
        rw [hsf]
        rcases not_and_or.mp hsame with hne | hne <;> simp [hne]
      simp [execute_pack, runPack, hc, processItem, applyItem, initPackState,
        hse, hsh, hmk, hde, hsfb, hsame, List.countP_cons, List.countP_nil]
  · have hvhf : vh = false := by simpa using hvhb
    subst hvhf
    by_cases hsame : ss.size = ds.size ∧ pyTrunc ss.mtime = pyTrunc ds.mtime
    · simp [execute_pack, runPack, hc, processItem, applyItem, initPackState,
        hse, hmk, hde, hsf, hsame]
    · have hsfb : same_file v = false := by
        rw [hsf]
        rcases not_and_or.mp hsame with hne | hne <;> simp [hne]
      simp [execute_pack, runPack, hc, processItem, applyItem, initPackState,
        hse, hmk, hde, hsfb, hsame, List.countP_cons, List.countP_nil]

/-- Closed instance of `execute_pack_skip_existing` (identical size and
truncated modification time: the skip is silent). -/
theorem execute_pack_skip_existing_witness :
    (execute_pack [(⟨"/in/b.png", "b.png", "/out/b.png", "textures"⟩,
        ⟨true, none, true, true, some ⟨7, 5⟩, some ⟨7, 5⟩, true, none⟩)]
      false false (fun _ => false)).summary.skipped = 1 ∧
      (execute_pack [(⟨"/in/b.png", "b.png", "/out/b.png", "textures"⟩,
          ⟨true, none, true, true, some ⟨7, 5⟩, some ⟨7, 5⟩, true, none⟩)]
        false false (fun _ => false)).issues = [] := by
  have h := execute_pack_skip_existing
    ⟨"/in/b.png", "b.png", "/out/b.png", "textures"⟩
    ⟨true, none, true, true, some ⟨7, 5⟩, some ⟨7, 5⟩, true, none⟩
    false (fun _ => false) ⟨7, 5⟩ ⟨7, 5⟩
    rfl rfl (by intro hf; cases hf) rfl rfl rfl rfl
  refine ⟨h.1, ?_⟩
  have heq : (7 : Nat) = 7 ∧ pyTrunc (5 : Rat) = pyTrunc (5 : Rat) := ⟨rfl, rfl⟩
  have h5 := h.2.2.2.2
  rw [if_pos heq] at h5
  exact h5

/-- The three summary counters of a loop state, summed. -/
def countsOf (s : PackState) : Nat := s.copied + s.skipped + s.failed

/-- How many `PACK_CANCELLED` warnings a finding list holds. -/
def cancelCount (l : List ValidationResult) : Nat :=
  l.countP (fun x => x.code == "PACK_CANCELLED" && x.level == "WARNING")

/-- The plan-item index that issued a destination-touching call. -/
def eventIdx : PackEvent → Nat
  | .mkdirCall i => i
  | .copyCall i => i

theorem processItem_delta_le (ov vh : Bool) (it : PackPlanItem) (v : FsView) :
    (processItem ov vh it v).dCopied + (processItem ov vh it v).dSkipped +
      (processItem ov vh it v).dFailed ≤ 2 := by
  unfold processItem
  repeat' split <;> try simp

theorem processItem_finding_not_cancel (ov vh : Bool) (it : PackPlanItem) (v : FsView) :
    ∀ x ∈ (processItem ov vh it v).finding.toList,
      (x.code == "PACK_CANCELLED" && x.level == "WARNING") = false := by
  unfold processItem
  repeat' split <;> try simp

theorem countsOf_applyItem (s : PackState) (idx : Nat) (r : ItemRes) :
    countsOf (applyItem s idx r) = countsOf s + (r.dCopied + r.dSkipped + r.dFailed) := by
  simp [countsOf, applyItem]
  omega

theorem cancelCount_applyItem (ov vh : Bool) (it : PackPlanItem) (v : FsView)
    (s : PackState) (idx : Nat) :
    cancelCount (applyItem s idx (processItem ov vh it v)).issues = cancelCount s.issues := by
  simp only [cancelCount, applyItem, List.countP_append]
  have h0 : (processItem ov vh it v).finding.toList.countP
      (fun x => x.code == "PACK_CANCELLED" && x.level == "WARNING") = 0 :=
    List.countP_eq_zero.mpr (by
      intro x hx
      simpa using processItem_finding_not_cancel ov vh it v x hx)
  omega

theorem events_applyItem (s : PackState) (idx : Nat) (r : ItemRes) :
    ∀ e ∈ (applyItem s idx r).events, e ∈ s.events ∨ eventIdx e = idx := by
  intro e he
  simp only [applyItem, List.append_assoc, List.mem_append] at he
  rcases he with he | he | he
  · exact Or.inl he
  · right
    rcases Bool.eq_false_or_eq_true r.mkdirTried with hb | hb <;> simp [hb] at he
    simp [he, eventIdx]
  · right
    rcases Bool.eq_false_or_eq_true r.copyTried with hb | hb <;> simp [hb] at he
    simp [he, eventIdx]

/-- Loop invariant behind claim C2: if the cancellation poll is false at
iterations up to `k` and true at iteration `k + 1`, and the remaining
items are enough to reach that poll, then the counters grow by at most
two per processed item, exactly one `PACK_CANCELLED` warning is added,
and every new destination-touching call belongs to an item of index at
most `k`. -/
theorem runPack_cancel_inv (ov vh : Bool) (cancel : Nat → Bool) (k : Nat)
    (hk1 : ∀ i, 1 ≤ i → i ≤ k → cancel i = false) (hk2 : cancel (k + 1) = true) :
    ∀ items : List (PackPlanItem × FsView), ∀ idx : Nat, ∀ s : PackState,
      1 ≤ idx → idx ≤ k + 1 → k + 2 ≤ idx + items.length →
      countsOf (runPack ov vh cancel items idx s) ≤ countsOf s + 2 * (k + 1 - idx) ∧
      cancelCount (runPack ov vh cancel items idx s).issues = cancelCount s.issues + 1 ∧
      (∀ e ∈ (runPack ov vh cancel items idx s).events, e ∈ s.events ∨ eventIdx e ≤ k) := by
  intro items
  induction items with
  | nil =>
    intro idx s h1 h2 h3
    simp only [List.length_nil] at h3
    omega
  | cons hd tl ih =>
    intro idx s h1 h2 h3
    obtain ⟨it, v⟩ := hd
    by_cases hcb : cancel idx = true
    · have hidx : idx = k + 1 := by
        by_contra hne
        have hle : idx ≤ k := by omega
        rw [hk1 idx h1 hle] at hcb
        cases hcb
      subst hidx
      refine ⟨?_, ?_, ?_⟩
      · simp [runPack, hcb, countsOf]
      · simp [runPack, hcb, cancelCount, List.countP_append, List.countP_cons]
      · intro e he
        simp only [runPack, hcb, if_true] at he
        exact Or.inl he
    · have hcf : cancel idx = false := by simpa using hcb
      have hneq : idx ≠ k + 1 := by
        intro h
        rw [h, hk2] at hcf
        cases hcf
      have hle : idx ≤ k := by omega
      have hrun : runPack ov vh cancel ((it, v) :: tl) idx s =
          runPack ov vh cancel tl (idx + 1)
            (applyItem s idx (processItem ov vh it v)) := by
        simp [runPack, hcf]
      obtain ⟨ha, hb, hcv⟩ := ih (idx + 1) (applyItem s idx (processItem ov vh it v))
        (by omega) (by omega) (by simp only [List.length_cons] at h3; omega)
      rw [hrun]
      refine ⟨?_, ?_, ?_⟩
      · have hdc := processItem_delta_le ov vh it v
        have hca := countsOf_applyItem s idx (processItem ov vh it v)
        omega
      · rw [hb, cancelCount_applyItem]
      · intro e he
        rcases hcv e he with hmem | hidx
        · rcases events_applyItem s idx (processItem ov vh it v) e hmem with hmem2 | heq
          · exact Or.inl hmem2
          · exact Or.inr (by omega)
        · exact Or.inr hidx

/-- C2 (amended): cancelling first at the poll after item `k` of `n`
(`k < n`) yields a summary whose counted items sum to at most `2 * k`
(an item whose post-copy verification fails is counted both as copied
and as failed), exactly one `PACK_CANCELLED` warning, and no
destination-touching call for any item beyond `k`. -/
theorem execute_pack_cancelled (plan : List (PackPlanItem × FsView)) (ov vh : Bool)
    (cancel : Nat → Bool) (k : Nat) (hk : k < plan.length)
    (hk1 : ∀ i, 1 ≤ i → i ≤ k → cancel i = false) (hk2 : cancel (k + 1) = true) :
    (execute_pack plan ov vh cancel).summary.copied +
        (execute_pack plan ov vh cancel).summary.skipped +
        (execute_pack plan ov vh cancel).summary.failed ≤ 2 * k ∧
      cancelCount (execute_pack plan ov vh cancel).issues = 1 ∧
      ∀ e ∈ (execute_pack plan ov vh cancel).events, eventIdx e ≤ k := by
  obtain ⟨ha, hb, hc⟩ := runPack_cancel_inv ov vh cancel k hk1 hk2 plan 1 initPackState
    (le_refl 1) (by omega) (by omega)
  refine ⟨?_, ?_, ?_⟩
  · simpa [execute_pack, countsOf, initPackState] using ha
  · simpa [execute_pack, cancelCount, initPackState] using hb
  · intro e he
    rcases hc e (by simpa [execute_pack] using he) with hmem | hle
    · simp [initPackState] at hmem
    · exact hle

/-- A two-item plan whose first item suffers a post-copy hash mismatch. -/
def c2Plan : List (PackPlanItem × FsView) :=
  [(⟨"/in/x.png", "x.png", "/out/x.png", "textures"⟩,
    ⟨true, some "h1", true, false, none, none, true, some "h2"⟩),
   (⟨"/in/y.png", "y.png", "/out/y.png", "textures"⟩,
    ⟨true, some "h3", true, false, none, none, true, some "h3"⟩)]

/-- Cancellation that first polls true at iteration 2, i.e. right after
item 1 has been processed. -/
def c2Cancel : Nat → Bool := fun i => decide (2 ≤ i)

/-- C2 counterexample: with the cancellation first true after item 1 of 2,
the counted items of the summary sum to 2, not at most 1 — the claim's
bound `≤ k` fails because a hash-mismatch item counts both as copied and
as failed. -/
theorem execute_pack_cancelled_cex :
    c2Cancel 1 = false ∧ c2Cancel 2 = true ∧ c2Plan.length = 2 ∧
      ¬ ((execute_pack c2Plan false true c2Cancel).summary.copied +
          (execute_pack c2Plan false true c2Cancel).summary.skipped +
          (execute_pack c2Plan false true c2Cancel).summary.failed ≤ 1) := by
  refine ⟨rfl, rfl, rfl, ?_⟩
  decide

/-- Closed instance of `execute_pack_cancelled` at the same two-item plan. -/
theorem execute_pack_cancelled_witness :
    (execute_pack c2Plan false true c2Cancel).summary.copied +
        (execute_pack c2Plan false true c2Cancel).summary.skipped +
        (execute_pack c2Plan false true c2Cancel).summary.failed ≤ 2 * 1 ∧
      cancelCount (execute_pack c2Plan false true c2Cancel).issues = 1 ∧
      ∀ e ∈ (execute_pack c2Plan false true c2Cancel).events, eventIdx e ≤ 1 :=
  execute_pack_cancelled c2Plan false true c2Cancel 1 (by decide)
    (fun i hi1 hi2 => by
      have hieq : i = 1 := Nat.le_antisymm hi2 hi1
      subst hieq
      rfl)
    rfl

/-- Mirrors `packager.core.scanner.ScanFile`. -/
structure ScanFile where
  path : String
  relpath : String
  name : String
  ext : String
  size_bytes : Nat
deriving DecidableEq

/-- `packager.core.planner.DOC_EXTS`. -/
def DOC_EXTS : List String := ["md", "txt", "pdf", "csv", "json", "xml", "yml", "yaml"]

/-- `packager.core.planner.TEX_EXTS`. -/
def TEX_EXTS : List String := ["png", "jpg", "jpeg", "tga", "tif", "tiff", "exr", "hdr", "bmp"]

/-- `packager.core.planner.MAYA_EXTS`. -/
def MAYA_EXTS : List String := ["ma", "mb"]

/-- `packager.core.planner.MAX_EXTS`. -/
def MAX_EXTS : List String := ["max"]

/-- `packager.core.planner.EXPORT_MAP`. -/
def EXPORT_MAP : List (String × String) :=
  [("fbx", "export/fbx"), ("abc", "export/abc"), ("usd", "export/usd"),
   ("usda", "export/usd"), ("usdc", "export/usd"), ("obj", "export/obj"),
   ("gltf", "export/gltf"), ("glb", "export/gltf")]

/-- `packager.core.planner.validate_pack_inputs`. -/
def validate_pack_inputs (project asset version : String) : List ValidationResult :=
  (if pyStrip project = "" then
    [⟨"ERROR", "PROJECT_MISSING", "Project name is required.", none⟩]
   else []) ++
  (if pyStrip asset = "" then
    [⟨"ERROR", "ASSET_MISSING", "Asset name is required.", none⟩]
   else []) ++
  (if pyStrip version = "" then
    [⟨"ERROR", "VERSION_MISSING", "Version is required (e.g. v001).", none⟩]
   else if versionOnlyMatch (pyStrip version) then []
   else [⟨"ERROR", "VERSION_INVALID", "Version must look like v001 (or v0001).", none⟩])

/-- The `/`-separated segments of `f.relpath.lower().replace("\\", "/")`. -/
def partsOf (f : ScanFile) : List String :=
  ((splitChar '/' ((pyLower f.relpath).data.map
    (fun c => if c == '\\' then '/' else c))).map String.mk)

/-- `packager.core.planner._category_for_file`, translated branch for
branch: folder hints first, then extension buckets, else `other`. -/
def _category_for_file (f : ScanFile) : String :=
  let ext := pyLower f.ext
  let parts := partsOf f
  if "tex" ∈ parts ∨ "textures" ∈ parts then "textures"
  else if "docs" ∈ parts ∨ "doc" ∈ parts then "docs"
  else if "source" ∈ parts then
    (if ext ∈ MAYA_EXTS ∨ "maya" ∈ parts then "source/maya"
     else if ext ∈ MAX_EXTS ∨ "max" ∈ parts then "source/max"
     else "source/other")
  else if ext ∈ TEX_EXTS then "textures"
  else if ext ∈ DOC_EXTS then "docs"
  else if ext ∈ MAYA_EXTS then "source/maya"
  else if ext ∈ MAX_EXTS then "source/max"
  else
    match EXPORT_MAP.lookup ext with
    | some c => c
    | none => "other"

/-- One plan item of `build_pack_plan`: destination
`base/<category>/<file name>` where `base` is already
`outputRoot/project/asset/version`. -/
def mkPlanItem (base : String) (f : ScanFile) : PackPlanItem :=
  let cat := _category_for_file f
  { src := f.path, relpath := f.relpath,
    dst := base ++ "/" ++ cat ++ "/" ++ pyBaseName f.path, category := cat }

/-- Append an item to the group of key `k` (Python
`defaultdict(list)[k].append(item)` with insertion-ordered keys). -/
def addToGroup : List (String × List PackPlanItem) → String → PackPlanItem →
    List (String × List PackPlanItem)
  | [], k, it => [(k, [it])]
  | (k', its) :: rest, k, it =>
    if k' = k then (k', its ++ [it]) :: rest
    else (k', its) :: addToGroup rest k it

/-- The destination grouping of `build_pack_plan`: key is the normalized
destination path (`os.path.normcase(os.path.normpath(dst))`, supplied as
the platform-dependent function `normKey`). -/
def groupByDst (normKey : String → String) (plan : List PackPlanItem) :
    List (String × List PackPlanItem) :=
  plan.foldl (fun acc it => addToGroup acc (normKey it.dst) it) []

/-- The `DEST_COLLISION` finding built from one colliding group (the
sample is the group's first item; groups are never empty). -/
def collisionFinding (kv : String × List PackPlanItem) : ValidationResult :=
  match kv.2 with
  | it :: _ =>
    ⟨"ERROR", "DEST_COLLISION",
      "Multiple files map to the same destination: " ++ it.dst, some it.relpath⟩
  | [] =>
    ⟨"ERROR", "DEST_COLLISION", "Multiple files map to the same destination: ", none⟩

/-- The colliding destination groups of a plan: groups of two or more
items under the same normalized destination key. -/
def collisionsOf (normKey : String → String) (plan : List PackPlanItem) :
    List (String × List PackPlanItem) :=
  (groupByDst normKey plan).filter (fun kv => decide (1 < kv.2.length))

/-- The findings the collision-detection block of `build_pack_plan`
appends: one `DEST_COLLISION` per group for the first 25 groups, and one
aggregate `DEST_COLLISION_MORE` when there are more than 25. -/
def collisionIssuesOf (normKey : String → String) (plan : List PackPlanItem) :
    List ValidationResult :=
  (List.map collisionFinding ((collisionsOf normKey plan).take 25)) ++
  (if 25 < (collisionsOf normKey plan).length then
    [⟨"ERROR", "DEST_COLLISION_MORE",
      toString ((collisionsOf normKey plan).length - 25) ++
        " more destination collisions not shown.", none⟩]
   else [])

/-- `packager.core.planner.build_pack_plan`.  `resolve` is the
environment's `Path(output_root).resolve()`; `normKey` is
`os.path.normcase(os.path.normpath(.))`. -/
def build_pack_plan (resolve normKey : String → String) (files : List ScanFile)
    (output_root project asset version : String) :
    List PackPlanItem × List ValidationResult :=
  let issues := validate_pack_inputs project asset version
  if issues.any (fun r => pyUpper r.level == "ERROR") then ([], issues)
  else
    let base := resolve output_root ++ "/" ++ pyStrip project ++ "/" ++
      pyStrip asset ++ "/" ++ pyStrip version
    let plan := files.map (mkPlanItem base)
    (plan, issues ++ collisionIssuesOf normKey plan)

theorem pyUpper_ERROR_beq : (pyUpper "ERROR" == "ERROR") = true := by decide

theorem validate_pack_inputs_bad (project asset version : String)
    (hbad : pyStrip project = "" ∨ pyStrip asset = "" ∨
      versionOnlyMatch (pyStrip version) = false) :
    ∃ r ∈ validate_pack_inputs project asset version, r.level = "ERROR" := by
  rcases hbad with hb | hb | hb
  · exact ⟨⟨"ERROR", "PROJECT_MISSING", "Project name is required.", none⟩,
      by simp [validate_pack_inputs, hb], rfl⟩
  · exact ⟨⟨"ERROR", "ASSET_MISSING", "Asset name is required.", none⟩,
      by simp [validate_pack_inputs, hb], rfl⟩
  · by_cases hvb : pyStrip version = ""
    · exact ⟨⟨"ERROR", "VERSION_MISSING", "Version is required (e.g. v001).", none⟩,
        by simp [validate_pack_inputs, hvb], rfl⟩
    · exact ⟨⟨"ERROR", "VERSION_INVALID", "Version must look like v001 (or v0001).", none⟩,
        by simp [validate_pack_inputs, hvb, hb], rfl⟩

/-- C4 (amended): when the whitespace-stripped project or asset is empty,
or the whitespace-stripped version fails the full `v` + 3-4 digit match,
`build_pack_plan` returns an empty plan together with at least one
`ERROR` finding, computing no plan items. -/
theorem build_pack_plan_bad_identity (resolve normKey : String → String)
    (files : List ScanFile) (output_root project asset version : String)
    (hbad : pyStrip project = "" ∨ pyStrip asset = "" ∨
      versionOnlyMatch (pyStrip version) = false) :
    (build_pack_plan resolve normKey files output_root project asset version).1 = [] ∧
      ∃ r ∈ (build_pack_plan resolve normKey files output_root project asset version).2,
        r.level = "ERROR" := by
  obtain ⟨r, hr, hlvl⟩ := validate_pack_inputs_bad project asset version hbad
  have hany : (validate_pack_inputs project asset version).any
      (fun x => pyUpper x.level == "ERROR") = true :=
    List.any_eq_true.mpr ⟨r, hr, by rw [hlvl]; exact pyUpper_ERROR_beq⟩
  refine ⟨?_, ⟨r, ?_, hlvl⟩⟩
  · simp [build_pack_plan, hany]
  · simpa [build_pack_plan, hany] using hr

/-- Closed instance of `build_pack_plan_bad_identity` (blank project). -/
theorem build_pack_plan_bad_identity_witness :
    (build_pack_plan (fun s => s) (fun s => s) [] "/out" "" "CrateA" "v001").1 = [] ∧
      ∃ r ∈ (build_pack_plan (fun s => s) (fun s => s) [] "/out" "" "CrateA" "v001").2,
        r.level = "ERROR" :=
  build_pack_plan_bad_identity (fun s => s) (fun s => s) [] "/out" "" "CrateA" "v001"
    (Or.inl (by decide))

/-- A single well-formed scanned file. -/
def c4File : ScanFile := ⟨"/in/geo/m.fbx", "geo/m.fbx", "m.fbx", "fbx", 3⟩

/-- C4 counterexample: the version string `" v001"` does not fully match
`v` + 3-4 digits, yet `build_pack_plan` strips it first and accepts it:
the plan is non-empty and no finding at all is emitted, contradicting the
claim's demand of an empty plan and an `ERROR` finding. -/
theorem build_pack_plan_unstripped_version_cex :
    versionOnlyMatch " v001" = false ∧
      (build_pack_plan (fun s => s) (fun s => s) [c4File] "/out" "p" "a" " v001").1.length = 1 ∧
      (build_pack_plan (fun s => s) (fun s => s) [c4File] "/out" "p" "a" " v001").2 = [] := by
  refine ⟨by decide, by decide, by decide⟩

/-- The items grouped under key `k` (first matching key wins; the grouping
keeps keys unique, so this is the group of `k`). -/
def groupItems : List (String × List PackPlanItem) → String → List PackPlanItem
  | [], _ => []
  | (k', its) :: rest, k => if k' = k then its else groupItems rest k

/-- The keys of a grouping, in insertion order. -/
def keysOf (groups : List (String × List PackPlanItem)) : List String :=
  groups.map Prod.fst

theorem groupItems_addToGroup (acc : List (String × List PackPlanItem))
    (k : String) (it : PackPlanItem) (q : String) :
    groupItems (addToGroup acc k it) q =
      if k = q then groupItems acc q ++ [it] else groupItems acc q := by
  induction acc with
  | nil =>
    by_cases h : k = q <;> simp [addToGroup, groupItems, h]
  | cons hd tl ih =>
    obtain ⟨k0, its⟩ := hd
    by_cases h0 : k0 = k
    · subst h0
      by_cases hq : k0 = q <;> simp [addToGroup, groupItems, hq]
    · by_cases hq : k0 = q
      · subst hq
        have hne : ¬ k = k0 := fun h => h0 h.symm
        simp [addToGroup, groupItems, h0, hne]
      · simp [addToGroup, groupItems, h0, hq, ih]

theorem mem_keysOf_addToGroup (acc : List (String × List PackPlanItem))
    (k : String) (it : PackPlanItem) (q : String) :
    q ∈ keysOf (addToGroup acc k it) ↔ q ∈ keysOf acc ∨ q = k := by
  induction acc with
  | nil => simp [addToGroup, keysOf, eq_comm]
  | cons hd tl ih =>
    obtain ⟨k0, its⟩ := hd
    by_cases h0 : k0 = k
    · subst h0
      simp [addToGroup, keysOf]
      tauto
    · simp only [addToGroup, if_neg h0, keysOf, List.map_cons, List.mem_cons]
      rw [show (addToGroup tl k it).map Prod.fst = keysOf (addToGroup tl k it) from rfl]
      rw [ih]
      simp [keysOf]
      tauto

theorem nodup_keysOf_addToGroup (acc : List (String × List PackPlanItem))
    (k : String) (it : PackPlanItem) (h : (keysOf acc).Nodup) :
    (keysOf (addToGroup acc k it)).Nodup := by
  induction acc with
  | nil => simp [addToGroup, keysOf]
  | cons hd tl ih =>
    obtain ⟨k0, its⟩ := hd
    simp only [keysOf, List.map_cons, List.nodup_cons] at h
    by_cases h0 : k0 = k
    · subst h0
      simpa [addToGroup, keysOf, List.nodup_cons] using h
    · simp only [addToGroup, if_neg h0, keysOf, List.map_cons, List.nodup_cons]
      refine ⟨?_, ih h.2⟩
      intro hmem
      rw [show (addToGroup tl k it).map Prod.fst = keysOf (addToGroup tl k it) from rfl,
        mem_keysOf_addToGroup] at hmem
      rcases hmem with hmem | hmem
      · exact h.1 hmem
      · exact h0 hmem

theorem groupByDst_items_aux (normKey : String → String) :
    ∀ (l : List PackPlanItem) (acc : List (String × List PackPlanItem)) (q : String),
      groupItems (l.foldl (fun a it => addToGroup a (normKey it.dst) it) acc) q =
        groupItems acc q ++ l.filter (fun it => normKey it.dst == q) := by
  intro l
  induction l with
  | nil => intro acc q; simp
  | cons it l ih =>
    intro acc q
    simp only [List.foldl_cons, List.filter_cons]
    rw [ih, groupItems_addToGroup]
    by_cases h : normKey it.dst = q <;> simp [h]

theorem groupByDst_items (normKey : String → String) (plan : List PackPlanItem)
    (q : String) :
    groupItems (groupByDst normKey plan) q =
      plan.filter (fun it => normKey it.dst == q) := by
  have h := groupByDst_items_aux normKey plan [] q
  simpa [groupByDst, groupItems] using h

theorem mem_keysOf_groupByDst_aux (normKey : String → String) :
    ∀ (l : List PackPlanItem) (acc : List (String × List PackPlanItem)) (q : String),
      q ∈ keysOf (l.foldl (fun a it => addToGroup a (normKey it.dst) it) acc) ↔
        q ∈ keysOf acc ∨ q ∈ l.map (fun it => normKey it.dst) := by
  intro l
  induction l with
  | nil => intro acc q; simp
  | cons it l ih =>
    intro acc q
    simp only [List.foldl_cons, List.map_cons, List.mem_cons]
    rw [ih, mem_keysOf_addToGroup]
    tauto

theorem mem_keysOf_groupByDst (normKey : String → String) (plan : List PackPlanItem)
    (q : String) :
    q ∈ keysOf (groupByDst normKey plan) ↔ q ∈ plan.map (fun it => normKey it.dst) := by
  have h := mem_keysOf_groupByDst_aux normKey plan [] q
  simpa [groupByDst, keysOf] using h

theorem nodup_keysOf_groupByDst_aux (normKey : String → String) :
    ∀ (l : List PackPlanItem) (acc : List (String × List PackPlanItem)),
      (keysOf acc).Nodup →
      (keysOf (l.foldl (fun a it => addToGroup a (normKey it.dst) it) acc)).Nodup := by
  intro l
  induction l with
  | nil => intro acc h; simpa using h
  | cons it l ih =>
    intro acc h
    exact ih _ (nodup_keysOf_addToGroup acc (normKey it.dst) it h)

theorem nodup_keysOf_groupByDst (normKey : String → String) (plan : List PackPlanItem) :
    (keysOf (groupByDst normKey plan)).Nodup :=
  nodup_keysOf_groupByDst_aux normKey plan [] (by simp [keysOf])

theorem groupItems_of_mem :
    ∀ groups : List (String × List PackPlanItem), (keysOf groups).Nodup →
      ∀ kv ∈ groups, groupItems groups kv.1 = kv.2 := by
  intro groups
  induction groups with
  | nil => intro _ kv hkv; cases hkv
  | cons hd tl ih =>
    intro hnd kv hkv
    obtain ⟨k0, its⟩ := hd
    simp only [keysOf, List.map_cons, List.nodup_cons] at hnd
    rcases List.mem_cons.mp hkv with rfl | hkv
    · simp [groupItems]
    · have hmem : kv.1 ∈ keysOf tl := List.mem_map_of_mem Prod.fst hkv
      have hne : ¬ k0 = kv.1 := fun h => hnd.1 (h ▸ hmem)
      simp only [groupItems, if_neg hne]
      exact ih hnd.2 kv hkv

/-- The number of groups of two or more plan items whose destinations
normalize to the same key: the claim-side definition of a "colliding
group", independent of the insertion-ordered grouping the code builds. -/
def numCollidingGroups (normKey : String → String) (plan : List PackPlanItem) : Nat :=
  ((plan.map (fun it => normKey it.dst)).dedup.countP
    (fun k => decide (1 < plan.countP (fun it => normKey it.dst == k))))

theorem collisions_length_eq (normKey : String → String) (plan : List PackPlanItem) :
    (collisionsOf normKey plan).length = numCollidingGroups normKey plan := by
  rw [collisionsOf, ← List.countP_eq_length_filter]
  have hnd := nodup_keysOf_groupByDst normKey plan
  have h1 : (groupByDst normKey plan).countP (fun kv => decide (1 < kv.2.length))
      = (groupByDst normKey plan).countP
          (fun kv => decide (1 < plan.countP (fun it => normKey it.dst == kv.1))) := by
    refine List.countP_congr ?_
    intro kv hkv
    have hgi := groupItems_of_mem (groupByDst normKey plan) hnd kv hkv
    rw [groupByDst_items] at hgi
    rw [← hgi, List.countP_eq_length_filter]
  rw [h1]
  have h2 : (keysOf (groupByDst normKey plan)).countP
        (fun k => decide (1 < plan.countP (fun it => normKey it.dst == k)))
      = (groupByDst normKey plan).countP
          (fun kv => decide (1 < plan.countP (fun it => normKey it.dst == kv.1))) := by
    rw [keysOf, List.countP_map]
    rfl
  rw [← h2]
  have hperm : (keysOf (groupByDst normKey plan)).Perm
      (plan.map (fun it => normKey it.dst)).dedup := by
    refine (List.perm_ext_iff_of_nodup hnd (List.nodup_dedup _)).mpr ?_
    intro a
    rw [List.mem_dedup, mem_keysOf_groupByDst]
  rw [hperm.countP_eq]
  rfl

theorem versionOnlyMatch_empty : versionOnlyMatch "" = false := by decide

theorem validate_pack_inputs_ok (project asset version : String)
    (hp : pyStrip project ≠ "") (ha : pyStrip asset ≠ "")
    (hv : versionOnlyMatch (pyStrip version) = true) :
    validate_pack_inputs project asset version = [] := by
  have hvb : pyStrip version ≠ "" := by
    intro h
    rw [h, versionOnlyMatch_empty] at hv
    cases hv
  simp [validate_pack_inputs, hp, ha, hvb, hv]

theorem collisionFinding_code_level (kv : String × List PackPlanItem) :
    ((collisionFinding kv).code == "DEST_COLLISION" &&
      (collisionFinding kv).level == "ERROR") = true := by
  obtain ⟨k, its⟩ := kv
  cases its <;> rfl

theorem collisionFinding_not_more (kv : String × List PackPlanItem) :
    ((collisionFinding kv).code == "DEST_COLLISION_MORE" &&
      (collisionFinding kv).level == "ERROR") = true → False := by
  obtain ⟨k, its⟩ := kv
  cases its <;> simp [collisionFinding]

theorem countP_collisionIssues_col (normKey : String → String)
    (plan : List PackPlanItem) :
    (collisionIssuesOf normKey plan).countP
        (fun r => r.code == "DEST_COLLISION" && r.level == "ERROR")
      = min (numCollidingGroups normKey plan) 25 := by
  rw [collisionIssuesOf, List.countP_append]
  have hm : (List.map collisionFinding ((collisionsOf normKey plan).take 25)).countP
      (fun r => r.code == "DEST_COLLISION" && r.level == "ERROR")
      = ((collisionsOf normKey plan).take 25).length := by
    rw [List.countP_map]
    calc ((collisionsOf normKey plan).take 25).countP
          ((fun r => r.code == "DEST_COLLISION" && r.level == "ERROR") ∘ collisionFinding)
        = ((collisionsOf normKey plan).take 25).countP (fun _ => true) :=
          List.countP_congr (fun kv _ => by
            simp only [Function.comp_apply, collisionFinding_code_level kv])
      _ = ((collisionsOf normKey plan).take 25).length := congrFun List.countP_true _
  have hrest : (if 25 < (collisionsOf normKey plan).length then
        [(⟨"ERROR", "DEST_COLLISION_MORE",
          toString ((collisionsOf normKey plan).length - 25) ++
            " more destination collisions not shown.", none⟩ : ValidationResult)]
       else []).countP (fun r => r.code == "DEST_COLLISION" && r.level == "ERROR") = 0 := by
    by_cases h : 25 < (collisionsOf normKey plan).length <;> simp [h]
  rw [hm, hrest, List.length_take, Nat.add_zero, Nat.min_comm,
    collisions_length_eq]

theorem countP_collisionIssues_more (normKey : String → String)
    (plan : List PackPlanItem) :
    (collisionIssuesOf normKey plan).countP
        (fun r => r.code == "DEST_COLLISION_MORE" && r.level == "ERROR")
      = if 25 < numCollidingGroups normKey plan then 1 else 0 := by
  rw [collisionIssuesOf, List.countP_append]
  have hm : (List.map collisionFinding ((collisionsOf normKey plan).take 25)).countP
      (fun r => r.code == "DEST_COLLISION_MORE" && r.level == "ERROR") = 0 := by
    rw [List.countP_map]
    refine List.countP_eq_zero.mpr ?_
    intro kv _
    exact fun hcontra => collisionFinding_not_more kv hcontra
  have hrest : (if 25 < (collisionsOf normKey plan).length then
        [(⟨"ERROR", "DEST_COLLISION_MORE",
          toString ((collisionsOf normKey plan).length - 25) ++
            " more destination collisions not shown.", none⟩ : ValidationResult)]
       else []).countP (fun r => r.code == "DEST_COLLISION_MORE" && r.level == "ERROR")
      = if 25 < (collisionsOf normKey plan).length then 1 else 0 := by
    by_cases h : 25 < (collisionsOf normKey plan).length <;> simp [h]
  rw [hm, hrest, Nat.zero_add, collisions_length_eq]

/-- C5: with valid identity inputs, `build_pack_plan` returns exactly one
plan item per input file (collisions never shrink the plan), emits one
`DEST_COLLISION` `ERROR` per colliding destination group up to 25, and
one aggregate `DEST_COLLISION_MORE` `ERROR` exactly when there are more
than 25 colliding groups. -/
theorem build_pack_plan_collision_findings (resolve normKey : String → String)
    (files : List ScanFile) (output_root project asset version : String)
    (hp : pyStrip project ≠ "") (ha : pyStrip asset ≠ "")
    (hv : versionOnlyMatch (pyStrip version) = true) :
    ((build_pack_plan resolve normKey files output_root project asset version).1.length
        = files.length) ∧
      ((build_pack_plan resolve normKey files output_root project asset version).2.countP
          (fun r => r.code == "DEST_COLLISION" && r.level == "ERROR")
        = min (numCollidingGroups normKey
            (build_pack_plan resolve normKey files output_root project asset version).1) 25) ∧
      ((build_pack_plan resolve normKey files output_root project asset version).2.countP
          (fun r => r.code == "DEST_COLLISION_MORE" && r.level == "ERROR")
        = if 25 < numCollidingGroups normKey
              (build_pack_plan resolve normKey files output_root project asset version).1
          then 1 else 0) := by
  have hval := validate_pack_inputs_ok project asset version hp ha hv
  have hplan : (build_pack_plan resolve normKey files output_root project asset version).1
      = files.map (mkPlanItem (resolve output_root ++ "/" ++ pyStrip project ++ "/" ++
          pyStrip asset ++ "/" ++ pyStrip version)) := by
    simp [build_pack_plan, hval]
  have hiss : (build_pack_plan resolve normKey files output_root project asset version).2
      = collisionIssuesOf normKey
          (build_pack_plan resolve normKey files output_root project asset version).1 := by
    rw [hplan]
    simp [build_pack_plan, hval]
  refine ⟨by rw [hplan, List.length_map], ?_, ?_⟩
  · rw [hiss, countP_collisionIssues_col]
  · rw [hiss, countP_collisionIssues_more]

/-- Closed instance of `build_pack_plan_collision_findings`: three files,
two of which collide on the same normalized destination. -/
theorem build_pack_plan_collision_findings_witness :
    ((build_pack_plan (fun s => s) pyLower
        [⟨"/in/tex/a.png", "tex/a.png", "a.png", "png", 1⟩,
         ⟨"/in/textures/A.PNG", "textures/A.PNG", "A.PNG", "png", 1⟩,
         ⟨"/in/docs/r.md", "docs/r.md", "r.md", "md", 1⟩]
        "/out" "Proj" "CrateA" "v001").1.length = 3) ∧
      ((build_pack_plan (fun s => s) pyLower
        [⟨"/in/tex/a.png", "tex/a.png", "a.png", "png", 1⟩,
         ⟨"/in/textures/A.PNG", "textures/A.PNG", "A.PNG", "png", 1⟩,
         ⟨"/in/docs/r.md", "docs/r.md", "r.md", "md", 1⟩]
        "/out" "Proj" "CrateA" "v001").2.countP
          (fun r => r.code == "DEST_COLLISION" && r.level == "ERROR")
        = min (numCollidingGroups pyLower
            (build_pack_plan (fun s => s) pyLower
              [⟨"/in/tex/a.png", "tex/a.png", "a.png", "png", 1⟩,
               ⟨"/in/textures/A.PNG", "textures/A.PNG", "A.PNG", "png", 1⟩,
               ⟨"/in/docs/r.md", "docs/r.md", "r.md", "md", 1⟩]
              "/out" "Proj" "CrateA" "v001").1) 25) ∧
      ((build_pack_plan (fun s => s) pyLower
        [⟨"/in/tex/a.png", "tex/a.png", "a.png", "png", 1⟩,
         ⟨"/in/textures/A.PNG", "textures/A.PNG", "A.PNG", "png", 1⟩,
         ⟨"/in/docs/r.md", "docs/r.md", "r.md", "md", 1⟩]
        "/out" "Proj" "CrateA" "v001").2.countP
          (fun r => r.code == "DEST_COLLISION_MORE" && r.level == "ERROR")
        = if 25 < numCollidingGroups pyLower
              (build_pack_plan (fun s => s) pyLower
                [⟨"/in/tex/a.png", "tex/a.png", "a.png", "png", 1⟩,
                 ⟨"/in/textures/A.PNG", "textures/A.PNG", "A.PNG", "png", 1⟩,
                 ⟨"/in/docs/r.md", "docs/r.md", "r.md", "md", 1⟩]
                "/out" "Proj" "CrateA" "v001").1
          then 1 else 0) :=
  build_pack_plan_collision_findings (fun s => s) pyLower
    [⟨"/in/tex/a.png", "tex/a.png", "a.png", "png", 1⟩,
     ⟨"/in/textures/A.PNG", "textures/A.PNG", "A.PNG", "png", 1⟩,
     ⟨"/in/docs/r.md", "docs/r.md", "r.md", "md", 1⟩]
    "/out" "Proj" "CrateA" "v001" (by decide) (by decide) (by decide)

/-- Values reachable from an `EXPORT_MAP` lookup hit. -/
theorem export_map_lookup_mem (e c : String) (h : EXPORT_MAP.lookup e = some c) :
    c ∈ ["export/fbx", "export/abc", "export/usd", "export/obj", "export/gltf"] := by
  simp only [EXPORT_MAP, List.lookup] at h
  repeat' split at h
  all_goals try cases h
  all_goals decide

/-- Every category `_category_for_file` can return. -/
theorem category_mem (f : ScanFile) :
    _category_for_file f ∈ ["textures", "docs", "source/maya", "source/max",
      "source/other", "export/fbx", "export/abc", "export/usd", "export/obj",
      "export/gltf", "other"] := by
  simp only [_category_for_file]
  repeat' split
  all_goals try decide
  rename_i c h
  have := export_map_lookup_mem _ c h
  simp only [List.mem_cons, List.not_mem_nil] at this ⊢
  tauto

/-- C7: the category function is total and deterministic (it is a Lean
function), always returns a non-empty category, honors the folder-hint
precedence (`tex`/`textures`, then `docs`/`doc`, then `source` with its
maya/max refinement) ahead of the extension buckets, and falls back to
`other` when nothing matches. -/
theorem _category_for_file_spec (f : ScanFile) :
    _category_for_file f ≠ "" ∧
      (("tex" ∈ partsOf f ∨ "textures" ∈ partsOf f) →
        _category_for_file f = "textures") ∧
      (¬ ("tex" ∈ partsOf f ∨ "textures" ∈ partsOf f) →
        ("docs" ∈ partsOf f ∨ "doc" ∈ partsOf f) → _category_for_file f = "docs") ∧
      (¬ ("tex" ∈ partsOf f ∨ "textures" ∈ partsOf f) →
        ¬ ("docs" ∈ partsOf f ∨ "doc" ∈ partsOf f) → "source" ∈ partsOf f →
        (_category_for_file f = "source/maya" ∨ _category_for_file f = "source/max" ∨
          _category_for_file f = "source/other")) ∧
      (¬ ("tex" ∈ partsOf f ∨ "textures" ∈ partsOf f) →
        ¬ ("docs" ∈ partsOf f ∨ "doc" ∈ partsOf f) → ¬ "source" ∈ partsOf f →
        ¬ pyLower f.ext ∈ TEX_EXTS → ¬ pyLower f.ext ∈ DOC_EXTS →
        ¬ pyLower f.ext ∈ MAYA_EXTS → ¬ pyLower f.ext ∈ MAX_EXTS →
        EXPORT_MAP.lookup (pyLower f.ext) = none →
        _category_for_file f = "other") := by
  refine ⟨?_, ?_, ?_, ?_, ?_⟩
  · have hmem := category_mem f
    intro hc
    rw [hc] at hmem
    exact absurd hmem (by decide)
  · intro h1
    simp only [_category_for_file]
    rw [if_pos h1]
  · intro h1 h2
    simp only [_category_for_file]
    rw [if_neg h1, if_pos h2]
  · intro h1 h2 h3
    simp only [_category_for_file]
    rw [if_neg h1, if_neg h2, if_pos h3]
    repeat' split
    · exact Or.inl rfl
    · exact Or.inr (Or.inl rfl)
    · exact Or.inr (Or.inr rfl)
  · intro h1 h2 h3 h4 h5 h6 h7 h8
    simp only [_category_for_file]
    rw [if_neg h1, if_neg h2, if_neg h3, if_neg h4, if_neg h5, if_neg h6, if_neg h7, h8]

/-- Closed instance of `_category_for_file_spec`: a `tex` folder hint wins
over the `max` extension bucket. -/
theorem _category_for_file_spec_witness :
    _category_for_file ⟨"/in/tex/s.max", "tex/s.max", "s.max", "max", 1⟩ = "textures" :=
  (_category_for_file_spec ⟨"/in/tex/s.max", "tex/s.max", "s.max", "max", 1⟩).2.1
    (by decide)

/-- One file entry as the scanner's walk sees it: `statSize = none`
models `os.stat` raising `OSError` (the file is then recorded with
size 0 rather than aborting the scan). -/
structure RawFile where
  name : String
  statSize : Option Nat
deriving DecidableEq

mutual
/-- A directory: its name, its plain files, its subdirectories. -/
inductive DirTree : Type where
  | node : String → List RawFile → Forest → DirTree
/-- A list of sibling subdirectories. -/
inductive Forest : Type where
  | nil : Forest
  | cons : DirTree → Forest → Forest
end

/-- The name of a directory. -/
def DirTree.dname : DirTree → String
  | .node n _ _ => n

/-- Does a name start with a dot (Python `name.startswith(".")`)? -/
def pyStartsWithDot (s : String) : Bool :=
  match s.data with
  | c :: _ => c == '.'
  | [] => false

/-- Join path components with `/` (the scanner's forward-slash relpath). -/
def joinSlash : List String → String
  | [] => ""
  | [x] => x
  | x :: xs => x ++ "/" ++ joinSlash xs

/-- The in-place `dirnames` filter of `scan_folder`: drop a directory if
its name is in `ignore_dirs`, or if `ignore_hidden` and it starts with
a dot — its contents are then never walked. -/
def keepDir (ign : List String) (hid : Bool) (d : DirTree) : Bool :=
  !(ign.contains d.dname) && !(hid && pyStartsWithDot d.dname)

/-- The file records one walked directory contributes: hidden files are
skipped when `ignore_hidden`; an unreadable stat records size 0. -/
def emitFiles (hid : Bool) (root : String) (pre : List String)
    (fs : List RawFile) : List ScanFile :=
  (fs.filter (fun f => !(hid && pyStartsWithDot f.name))).map (fun f =>
    { path := root ++ "/" ++ joinSlash (pre ++ [f.name])
      relpath := joinSlash (pre ++ [f.name])
      name := f.name
      ext := normalize_ext f.name
      size_bytes := f.statSize.getD 0 })

/-- What one walk returns: the emitted file records in `os.walk` order and
the component paths of every directory actually visited. -/
structure WalkOut where
  files : List ScanFile
  visited : List (List String)

mutual
/-- `os.walk` from one directory (the directory itself is already
accepted): emit its files, then descend into the kept subdirectories. -/
def walkDir (ign : List String) (hid : Bool) (root : String)
    (pre : List String) : DirTree → WalkOut
  | .node _ fs subs =>
    let rest := walkForest ign hid root pre subs
    ⟨emitFiles hid root pre fs ++ rest.files, pre :: rest.visited⟩
/-- Walk a list of sibling subdirectories, pruning before descent. -/
def walkForest (ign : List String) (hid : Bool) (root : String)
    (pre : List String) : Forest → WalkOut
  | .nil => ⟨[], []⟩
  | .cons d ds =>
    let tail := walkForest ign hid root pre ds
    if keepDir ign hid d then
      let sub := walkDir ign hid root (pre ++ [d.dname]) d
      ⟨sub.files ++ tail.files, sub.visited ++ tail.visited⟩
    else ⟨tail.files, tail.visited⟩
end

/-- Bump the histogram count of key `k` (Python
`ext_counts[key] = ext_counts.get(key, 0) + 1`, insertion-ordered). -/
def bumpExt : List (String × Nat) → String → List (String × Nat)
  | [], k => [(k, 1)]
  | (k', c) :: rest, k =>
    if k' = k then (k', c + 1) :: rest else (k', c) :: bumpExt rest k

/-- The extension histogram accumulated over the emitted files in order. -/
def extCounts (files : List ScanFile) : List (String × Nat) :=
  files.foldl (fun acc f => bumpExt acc f.ext) []

/-- Add `n` to the count of key `k` (for the unsupported-extension dict). -/
def bumpExtBy : List (String × Nat) → String → Nat → List (String × Nat)
  | [], k, n => [(k, n)]
  | (k', c) :: rest, k, n =>
    if k' = k then (k', c + n) :: rest else (k', c) :: bumpExtBy rest k n

/-- The scanner's fixed built-in allow-list. -/
def SCAN_ALLOW : List String :=
  ["ma", "mb", "max", "blend",
   "fbx", "abc", "usd", "usda", "usdc", "obj", "gltf", "glb",
   "png", "jpg", "jpeg", "tif", "tiff", "exr", "tga", "bmp", "hdr",
   "json", "xml", "txt", "md", "pdf", "csv", "yml", "yaml",
   "mtl", "wav",
   "zip", "7z", "rar"]

/-- The unsupported-extension buckets derived from the histogram. -/
def unsupportedCounts (ec : List (String × Nat)) : List (String × Nat) :=
  ec.foldl (fun acc kv =>
    if kv.1 = "" then bumpExtBy acc "(no_ext)" kv.2
    else if SCAN_ALLOW.contains kv.1 then acc
    else bumpExtBy acc kv.1 kv.2) []

/-- The sort order `key=lambda kv: (-kv[1], kv[0])`: descending count,
then lexical key. -/
def extLe (a b : String × Nat) : Bool :=
  b.2 < a.2 || (a.2 == b.2 && !(b.1 < a.1))

/-- `dict(sorted(..., key=lambda kv: (-kv[1], kv[0])))`. -/
def sortPairs (l : List (String × Nat)) : List (String × Nat) :=
  List.insertionSort (fun a b => extLe a b = true) l

/-- Mirrors `packager.core.scanner.ScanSummary`. -/
structure ScanSummary where
  root : String
  total_files : Nat
  total_dirs : Nat
  total_bytes : Nat
  extensions : List (String × Nat)
  unsupported : List (String × Nat)

/-- `packager.core.scanner.scan_folder` over an explicit directory tree
(`root` is the resolved root path as a string; symbolic links are not
modelled, matching the default `follow_symlinks=False`). -/
def scan_folder (tree : DirTree) (root : String) (ign : List String)
    (hid : Bool) : List ScanFile × ScanSummary :=
  let w := walkDir ign hid root [] tree
  let ec := extCounts w.files
  (w.files,
    ⟨root, w.files.length, w.visited.length,
      (w.files.map (fun f => f.size_bytes)).sum,
      sortPairs ec, sortPairs (unsupportedCounts ec)⟩)

/-- The keys of a histogram, in insertion order. -/
abbrev keysE (l : List (String × Nat)) : List String := l.map Prod.fst

theorem bumpExt_sum (acc : List (String × Nat)) (k : String) :
    ((bumpExt acc k).map Prod.snd).sum = (acc.map Prod.snd).sum + 1 := by
  induction acc with
  | nil => simp [bumpExt]
  | cons hd tl ih =>
    obtain ⟨k', c⟩ := hd
    by_cases h : k' = k <;> simp [bumpExt, h, ih] <;> omega

theorem mem_keysE_bumpExt (acc : List (String × Nat)) (k q : String) :
    q ∈ keysE (bumpExt acc k) ↔ q ∈ keysE acc ∨ q = k := by
  induction acc with
  | nil => simp [bumpExt, keysE, eq_comm]
  | cons hd tl ih =>
    obtain ⟨k', c⟩ := hd
    by_cases h : k' = k
    · subst h
      simp [bumpExt, keysE]
      tauto
    · simp only [bumpExt, if_neg h, keysE, List.map_cons, List.mem_cons] at ih ⊢
      rw [ih]
      tauto

theorem nodup_keysE_bumpExt (acc : List (String × Nat)) (k : String)
    (h : (keysE acc).Nodup) : (keysE (bumpExt acc k)).Nodup := by
  induction acc with
  | nil => simp [bumpExt, keysE]
  | cons hd tl ih =>
    obtain ⟨k', c⟩ := hd
    simp only [keysE, List.map_cons, List.nodup_cons] at h
    by_cases hk : k' = k
    · subst hk
      simpa [bumpExt, keysE, List.nodup_cons] using h
    · simp only [bumpExt, if_neg hk, keysE, List.map_cons, List.nodup_cons]
      refine ⟨?_, ih h.2⟩
      intro hmem
      rw [show (bumpExt tl k).map Prod.fst = keysE (bumpExt tl k) from rfl] at hmem
      rw [mem_keysE_bumpExt] at hmem
      rcases hmem with hmem | hmem
      · exact h.1 hmem
      · exact hk hmem

theorem extCounts_sum_aux :
    ∀ (files : List ScanFile) (acc : List (String × Nat)),
      ((files.foldl (fun a f => bumpExt a f.ext) acc).map Prod.snd).sum
        = (acc.map Prod.snd).sum + files.length := by
  intro files
  induction files with
  | nil => intro acc; simp
  | cons f fs ih =>
    intro acc
    simp only [List.foldl_cons, List.length_cons]
    rw [ih, bumpExt_sum]
    omega

theorem nodup_keysE_foldl :
    ∀ (files : List ScanFile) (acc : List (String × Nat)), (keysE acc).Nodup →
      (keysE (files.foldl (fun a f => bumpExt a f.ext) acc)).Nodup := by
  intro files
  induction files with
  | nil => intro acc h; simpa using h
  | cons f fs ih =>
    intro acc h
    exact ih _ (nodup_keysE_bumpExt acc f.ext h)

theorem mem_keysE_foldl_mono :
    ∀ (files : List ScanFile) (acc : List (String × Nat)) (q : String),
      q ∈ keysE acc → q ∈ keysE (files.foldl (fun a f => bumpExt a f.ext) acc) := by
  intro files
  induction files with
  | nil => intro acc q h; simpa using h
  | cons f fs ih =>
    intro acc q h
    exact ih _ q ((mem_keysE_bumpExt acc f.ext q).mpr (Or.inl h))

theorem ext_mem_keysE_foldl :
    ∀ (files : List ScanFile) (acc : List (String × Nat)) (f : ScanFile),
      f ∈ files → f.ext ∈ keysE (files.foldl (fun a g => bumpExt a g.ext) acc) := by
  intro files
  induction files with
  | nil => intro acc f h; cases h
  | cons g gs ih =>
    intro acc f h
    rcases List.mem_cons.mp h with rfl | h
    · exact mem_keysE_foldl_mono gs _ f.ext
        ((mem_keysE_bumpExt acc f.ext f.ext).mpr (Or.inr rfl))
    · exact ih _ f h

theorem countP_key_eq_one (l : List (String × Nat)) (q : String)
    (hnd : (keysE l).Nodup) (hmem : q ∈ keysE l) :
    l.countP (fun kv => kv.1 == q) = 1 := by
  induction l with
  | nil => cases hmem
  | cons hd tl ih =>
    obtain ⟨k, c⟩ := hd
    simp only [keysE, List.map_cons, List.nodup_cons, List.mem_cons] at hnd hmem
    by_cases hk : k = q
    · subst hk
      have h0 : tl.countP (fun kv => kv.1 == k) = 0 := by
        refine List.countP_eq_zero.mpr ?_
        intro kv hkv
        simp only [beq_iff_eq]
        intro heq
        exact hnd.1 (heq ▸ List.mem_map_of_mem Prod.fst hkv)
      rw [List.countP_cons, h0]
      simp
    · have hq : q ∈ keysE tl := by
        rcases hmem with hmem | hmem
        · exact absurd hmem.symm hk
        · exact hmem
      rw [List.countP_cons, ih hnd.2 hq]
      simp [hk]

/-- C8: for every scan, the histogram counts sum to the total file count,
and each returned file's extension key occupies exactly one histogram
bucket. -/
theorem scan_histogram (tree : DirTree) (root : String) (ign : List String)
    (hid : Bool) :
    (((scan_folder tree root ign hid).2.extensions.map Prod.snd).sum
        = (scan_folder tree root ign hid).2.total_files) ∧
      ∀ f ∈ (scan_folder tree root ign hid).1,
        (scan_folder tree root ign hid).2.extensions.countP
          (fun kv => kv.1 == f.ext) = 1 := by
  have hext : (scan_folder tree root ign hid).2.extensions
      = sortPairs (extCounts ((walkDir ign hid root [] tree).files)) := rfl
  have htf : (scan_folder tree root ign hid).2.total_files
      = (walkDir ign hid root [] tree).files.length := rfl
  have hfiles : (scan_folder tree root ign hid).1
      = (walkDir ign hid root [] tree).files := rfl
  have hperm : (sortPairs (extCounts ((walkDir ign hid root [] tree).files))).Perm
      (extCounts ((walkDir ign hid root [] tree).files)) :=
    List.perm_insertionSort _ _
  constructor
  · rw [hext, htf, (hperm.map Prod.snd).sum_eq]
    have h2 := extCounts_sum_aux ((walkDir ign hid root [] tree).files) []
    simpa [extCounts] using h2
  · intro f hf
    rw [hext, hperm.countP_eq]
    refine countP_key_eq_one _ _ ?_ ?_
    · exact nodup_keysE_foldl _ [] (by simp [keysE])
    · exact ext_mem_keysE_foldl _ [] f (hfiles ▸ hf)

/-- A small concrete tree for evaluating the scan theorems. -/
def exTree : DirTree :=
  DirTree.node "drop"
    [⟨"a.png", some 3⟩, ⟨"b.PNG", some 4⟩, ⟨"c", none⟩]
    (Forest.cons
      (DirTree.node ".git" [⟨"cfg", some 9⟩] Forest.nil)
      (Forest.cons
        (DirTree.node "geo" [⟨"m_v001.fbx", some 5⟩, ⟨".hidden", some 1⟩] Forest.nil)
        Forest.nil))

/-- Closed instance of `scan_histogram` at `exTree`. -/
theorem scan_histogram_witness :
    (((scan_folder exTree "/r" [] true).2.extensions.map Prod.snd).sum
        = (scan_folder exTree "/r" [] true).2.total_files) ∧
      (scan_folder exTree "/r" [] true).2.extensions.countP
        (fun kv => kv.1 == "png") = 1 :=
  ⟨(scan_histogram exTree "/r" [] true).1,
    (scan_histogram exTree "/r" [] true).2
      ⟨"/r/a.png", "a.png", "a.png", "png", 3⟩ (by decide)⟩

/-- A directory name the walk may descend into: not in the ignore set and
not hidden. -/
def okName (ign : List String) (n : String) : Prop :=
  ¬ n ∈ ign ∧ pyStartsWithDot n = false

theorem emitFiles_ok (root : String) (pre : List String) (fs : List RawFile)
    (f : ScanFile) (hf : f ∈ emitFiles true root pre fs) :
    pyStartsWithDot f.name = false ∧ f.relpath = joinSlash (pre ++ [f.name]) := by
  simp only [emitFiles, List.mem_map, List.mem_filter] at hf
  obtain ⟨rf, ⟨_, hkeep⟩, rfl⟩ := hf
  have hkeep2 : pyStartsWithDot rf.name = false := by simpa using hkeep
  exact ⟨hkeep2, rfl⟩

mutual
theorem walkDir_ok (ign : List String) (root : String) :
    (t : DirTree) → (pre : List String) → (∀ d ∈ pre, okName ign d) →
      ((∀ f ∈ (walkDir ign true root pre t).files,
          pyStartsWithDot f.name = false ∧
          ∃ ds, f.relpath = joinSlash (ds ++ [f.name]) ∧ ∀ d ∈ ds, okName ign d) ∧
        (∀ p ∈ (walkDir ign true root pre t).visited, ∀ d ∈ p, okName ign d))
  | .node n fs subs, pre, hpre => by
    have hforest := walkForest_ok ign root subs pre hpre
    constructor
    · intro f hf
      simp only [walkDir, List.mem_append] at hf
      rcases hf with hf | hf
      · obtain ⟨h1, h2⟩ := emitFiles_ok root pre fs f hf
        exact ⟨h1, pre, h2, hpre⟩
      · exact hforest.1 f hf
    · intro p hp
      simp only [walkDir, List.mem_cons] at hp
      rcases hp with rfl | hp
      · exact hpre
      · exact hforest.2 p hp
theorem walkForest_ok (ign : List String) (root : String) :
    (ts : Forest) → (pre : List String) → (∀ d ∈ pre, okName ign d) →
      ((∀ f ∈ (walkForest ign true root pre ts).files,
          pyStartsWithDot f.name = false ∧
          ∃ ds, f.relpath = joinSlash (ds ++ [f.name]) ∧ ∀ d ∈ ds, okName ign d) ∧
        (∀ p ∈ (walkForest ign true root pre ts).visited, ∀ d ∈ p, okName ign d))
  | .nil, pre, hpre => by
    constructor
    · intro f hf
      simp [walkForest] at hf
    · intro p hp
      simp [walkForest] at hp
  | .cons d ds, pre, hpre => by
    have htail := walkForest_ok ign root ds pre hpre
    by_cases hk : keepDir ign true d = true
    · have hdok : okName ign d.dname := by
        simp only [keepDir, Bool.and_eq_true, Bool.not_eq_true', Bool.true_and] at hk
        exact ⟨by simpa using hk.1, hk.2⟩
      have hpre2 : ∀ x ∈ pre ++ [d.dname], okName ign x := by
        intro x hx
        rcases List.mem_append.mp hx with hx | hx
        · exact hpre x hx
        · rcases List.mem_singleton.mp hx with rfl
          exact hdok
      have hsub := walkDir_ok ign root d (pre ++ [d.dname]) hpre2
      constructor
      · intro f hf
        simp only [walkForest, hk, if_true, List.mem_append] at hf
        rcases hf with hf | hf
        · exact hsub.1 f hf
        · exact htail.1 f hf
      · intro p hp
        simp only [walkForest, hk, if_true, List.mem_append] at hp
        rcases hp with hp | hp
        · exact hsub.2 p hp
        · exact htail.2 p hp
    · have hkf : keepDir ign true d = false := by simpa using hk
      constructor
      · intro f hf
        simp only [walkForest, hkf, Bool.false_eq_true, if_false] at hf
        exact htail.1 f hf
      · intro p hp
        simp only [walkForest, hkf, Bool.false_eq_true, if_false] at hp
        exact htail.2 p hp
end

/-- C9: scanning with `ignore_hidden` never returns a hidden file nor any
file under a hidden or ignored directory; every directory the walk
visits has only admissible components, and all summary counts are
computed from those visited directories and returned files alone, so
pruned contents are neither visited nor counted. -/
theorem scan_prunes_hidden_and_ignored (tree : DirTree) (root : String)
    (ign : List String) :
    (∀ f ∈ (scan_folder tree root ign true).1,
        pyStartsWithDot f.name = false ∧
        ∃ ds, f.relpath = joinSlash (ds ++ [f.name]) ∧ ∀ d ∈ ds, okName ign d) ∧
      (∀ p ∈ (walkDir ign true root [] tree).visited, ∀ d ∈ p, okName ign d) ∧
      (scan_folder tree root ign true).2.total_dirs
        = (walkDir ign true root [] tree).visited.length ∧
      (scan_folder tree root ign true).2.total_files
        = (scan_folder tree root ign true).1.length ∧
      (scan_folder tree root ign true).2.total_bytes
        = ((scan_folder tree root ign true).1.map (fun f => f.size_bytes)).sum := by
  have h := walkDir_ok ign root tree [] (by intro d hd; cases hd)
  exact ⟨h.1, h.2, rfl, rfl, rfl⟩

/-- Closed instance of `scan_prunes_hidden_and_ignored` at `exTree`:
no hidden or cache files show up in the returned list. -/
theorem scan_prunes_witness :
    (scan_folder exTree "/r" ["cache"] true).2.total_files
      = (scan_folder exTree "/r" ["cache"] true).1.length :=
  (scan_prunes_hidden_and_ignored exTree "/r" ["cache"]).2.2.2.1

/-- Mirrors `packager.core.profiles.ProfileRules`: the four rule toggles
a profile carries. -/
structure ProfileRules where
  enforce_no_spaces : Bool
  warn_missing_version_token : Bool
  warn_unsupported_extensions : Bool
  error_missing_required_folders : Bool
deriving DecidableEq

/-- Mirrors `packager.core.profiles.ProfileConfig` (the extension set is
carried as a list; only membership is used). -/
structure ProfileConfig where
  name : String
  required_folders : List String
  allowed_extensions : List String
  rules : ProfileRules
deriving DecidableEq

/-- Python `" " in s`. -/
def hasSpace (s : String) : Bool := s.data.contains ' '

/-- Append a relpath to the group of the lower-cased file name (Python
`defaultdict(list)` with insertion-ordered keys). -/
def addToNameGroup : List (String × List String) → String → String →
    List (String × List String)
  | [], k, rp => [(k, [rp])]
  | (k', rps) :: rest, k, rp =>
    if k' = k then (k', rps ++ [rp]) :: rest
    else (k', rps) :: addToNameGroup rest k rp

/-- The duplicate-filename grouping of `validate_delivery`. -/
def nameGroups (files : List ScanFile) : List (String × List String) :=
  files.foldl (fun acc f => addToNameGroup acc (pyLower f.name) f.relpath) []

/-- `packager.core.validator.validate_delivery`, translated rule block
for rule block.  `rootListing` carries the names of the immediate
subdirectories of the input root (`none` models `iterdir` raising
`OSError`); `extensions` is the scan summary's histogram in order.
Note: exactly as in the source, no rule block consults
`profile.rules` — the toggles are never read. -/
def validate_delivery (rootListing : Option (List String)) (files : List ScanFile)
    (extensions : List (String × Nat)) (profile : ProfileConfig) :
    List ValidationResult :=
  match rootListing with
  | none => [⟨"ERROR", "ROOT_UNREADABLE", "Input root cannot be read.", none⟩]
  | some existing_top =>
    (profile.required_folders.filterMap (fun req =>
      if req ∈ existing_top then none
      else some ⟨"ERROR", "REQ_FOLDER_MISSING",
        "Required folder missing for " ++ profile.name ++ ": " ++ req ++ "/",
        some (req ++ "/")⟩)) ++
    (existing_top.filterMap (fun d =>
      if hasSpace d then
        some ⟨"ERROR", "SPACE_IN_DIRNAME", "Folder name contains spaces: " ++ d,
          some (d ++ "/")⟩
      else none)) ++
    (files.flatMap (fun f =>
      (if hasSpace f.name then
        [⟨"ERROR", "SPACE_IN_FILENAME", "File name contains spaces: " ++ f.name,
          some f.relpath⟩]
       else []) ++
      (if hasSpace f.relpath && !(hasSpace f.name) then
        [⟨"ERROR", "SPACE_IN_PATH", "Path contains spaces (folder name).",
          some f.relpath⟩]
       else []))) ++
    (files.filterMap (fun f =>
      if f.ext ∈ ["md", "txt", "pdf", "csv", "log"] then none
      else if hasVToken f.name then none
      else some ⟨"WARNING", "VERSION_TOKEN_MISSING",
        "Filename missing version token (e.g. v001 or _v001).", some f.relpath⟩)) ++
    (extensions.flatMap (fun kv =>
      if kv.1 = "" then
        [⟨"WARNING", "NO_EXTENSION_FILES",
          toString kv.2 ++ " file(s) have no extension.", none⟩]
      else if kv.1 ∈ profile.allowed_extensions then []
      else
        [⟨"WARNING", "UNSUPPORTED_EXTENSION",
          "Extension ." ++ kv.1 ++ " not in " ++ profile.name ++ " allowlist (" ++
            toString kv.2 ++ " file(s)).", none⟩])) ++
    ((nameGroups files).filterMap (fun kv =>
      if 1 < kv.2.length then
        some ⟨"WARNING", "DUPLICATE_FILENAME",
          "Duplicate filename appears " ++ toString kv.2.length ++ " times: " ++ kv.1,
          some (kv.2.headD "")⟩
      else none)) ++
    [⟨"INFO", "PROFILE_ACTIVE", "Validation profile active: " ++ profile.name, none⟩]

/-- A profile whose four rule toggles are all disabled. -/
def c1Profile : ProfileConfig :=
  { name := "Game"
    required_folders := ["geo", "missing"]
    allowed_extensions := ["fbx"]
    rules := ⟨false, false, false, false⟩ }

/-- One scanned file violating the no-spaces and version-token rules. -/
def c1Files : List ScanFile :=
  [⟨"/in/geo/a b.png", "geo/a b.png", "a b.png", "png", 5⟩]

/-- The matching one-bucket extension histogram. -/
def c1Extensions : List (String × Nat) := [("png", 1)]

/-- C1 (bug evaluation): with every rule toggle of the profile set to
false, `validate_delivery` still emits a space finding, a version-token
warning, an unsupported-extension warning, and reports the missing
required folder at level `ERROR` — the code never reads
`profile.rules`, so no rule block is toggleable and
`errorMissingRequiredFolders` never downgrades the level. -/
theorem validate_delivery_ignores_rule_toggles :
    c1Profile.rules.enforce_no_spaces = false ∧
      c1Profile.rules.warn_missing_version_token = false ∧
      c1Profile.rules.warn_unsupported_extensions = false ∧
      c1Profile.rules.error_missing_required_folders = false ∧
      (validate_delivery (some ["geo"]) c1Files c1Extensions c1Profile).countP
        (fun r => r.code == "SPACE_IN_FILENAME" && r.level == "ERROR") = 1 ∧
      (validate_delivery (some ["geo"]) c1Files c1Extensions c1Profile).countP
        (fun r => r.code == "VERSION_TOKEN_MISSING" && r.level == "WARNING") = 1 ∧
      (validate_delivery (some ["geo"]) c1Files c1Extensions c1Profile).countP
        (fun r => r.code == "UNSUPPORTED_EXTENSION" && r.level == "WARNING") = 1 ∧
      (validate_delivery (some ["geo"]) c1Files c1Extensions c1Profile).countP
        (fun r => r.code == "REQ_FOLDER_MISSING" && r.level == "ERROR") = 1 := by
  decide

end Packager
